import Mathlib

/-!
Shallow embedding of `memote/support/thermodynamics.py`.

The module under verification classifies metabolic reactions by agreement of
their annotated reversibility with a thermodynamics-based estimate.  Its three
functions are `smallest_compound_ID`, `get_equilibrator_rxn_string` and
`find_incorrect_thermodynamic_reversibility`.  The external collaborators
(`equilibrator_api.Reaction.parse_formula`, `check_full_reaction_balancing`,
`reversibility_index` and `CompoundMatcher.match` followed by the
`df['CID'].iloc[0]` projection) are modelled by an explicit `Oracle` record of
pure functions; an exception raised by a collaborator or by the Python code is
modelled as `Option.none`.  Python string primitives used by the source
(`str.replace`, the `in` substring test with a one-character pattern,
`str.lstrip`, `int(...)` on a string) are embedded below with Python's
semantics.
-/

namespace Memote

/-- Structural (fuel-indexed) worker for `pyReplace`; the fuel is always large
enough (one more than the length of the subject) so the zero case is never
reached. Mirrors CPython `str.replace`: leftmost, non-overlapping occurrences,
and an empty pattern matches before every character and at the end. -/
def pyReplaceFuel (old new : List Char) : Nat → List Char → List Char
  | 0, s => s
  | _ + 1, [] => if old.isEmpty then new else []
  | fuel + 1, c :: rest =>
    if old.isEmpty then new ++ c :: pyReplaceFuel old new fuel rest
    else if (c :: rest).take old.length = old then
      new ++ pyReplaceFuel old new fuel ((c :: rest).drop old.length)
    else c :: pyReplaceFuel old new fuel rest

/-- Python `s.replace(old, new)`. -/
def pyReplace (s old new : String) : String :=
  String.mk (pyReplaceFuel old.data new.data (s.data.length + 1) s.data)

/-- Python `c in s` for a single-character pattern `c`. -/
def pyContainsChar (s : String) (c : Char) : Bool :=
  s.data.any (fun d => d = c)

/-- Python `s.lstrip(c)` for a single strip character. -/
def pyLstrip (s : String) (c : Char) : String :=
  String.mk (s.data.dropWhile (fun d => d = c))

/-- Numeric value of an ASCII digit. -/
def digitVal (c : Char) : Nat := c.toNat - 48

/-- Digits of a Python decimal integer literal after the first digit:
ASCII digits in which a single underscore may separate two digits. -/
def pyIntRest : List Char → Nat → Option Nat
  | [], acc => some acc
  | '_' :: rest, acc =>
    match rest with
    | c :: rest2 =>
      if c.isDigit then pyIntRest rest2 (acc * 10 + digitVal c) else none
    | [] => none
  | c :: rest, acc =>
    if c.isDigit then pyIntRest rest (acc * 10 + digitVal c) else none

/-- Magnitude of a Python decimal integer literal: at least one digit, leading
underscore refused. -/
def pyIntDigits : List Char → Option Nat
  | [] => none
  | c :: rest => if c.isDigit then pyIntRest rest (digitVal c) else none

/-- Python `int(s)` for a decimal string: surrounding whitespace stripped,
then an optional sign and a digit string; `none` models `ValueError`. -/
def pyInt (s : String) : Option Int :=
  let t := (s.data.dropWhile Char.isWhitespace).reverse.dropWhile
    Char.isWhitespace |>.reverse
  match t with
  | '+' :: rest => (pyIntDigits rest).map (fun n => (n : Int))
  | '-' :: rest => (pyIntDigits rest).map (fun n => -(n : Int))
  | cs => (pyIntDigits cs).map (fun n => (n : Int))

/-- The sort key `int(x.lstrip('C'))` used by `smallest_compound_ID`; the
default `0` is only reached on inputs where the Python code would already have
raised `ValueError`. -/
def sortKey (x : String) : Int :=
  (pyInt (pyLstrip x 'C')).getD 0

/-- `smallest_compound_ID(kegg_ann_list)`: filter the list to the entries that
contain the character `'C'` anywhere and sort them ascending by
`int(x.lstrip('C'))`.  CPython computes the key of every element before
sorting, so a single unparsable key raises `ValueError` (modelled as `none`).
Python's sort is stable and ascending; `insertionSort` with a `≤` key
comparison is extensionally the same. -/
def smallest_compound_ID (kegg_ann_list : List String) : Option (List String) :=
  match (kegg_ann_list.filter (fun x => pyContainsChar x 'C')).mapM
      (fun x => pyInt (pyLstrip x 'C')) with
  | none => none
  | some _ =>
    some ((kegg_ann_list.filter (fun x => pyContainsChar x 'C')).insertionSort
      (fun a b => sortKey a ≤ sortKey b))

/-- The value found under the key `"kegg.compound"` of `met.annotation`:
missing, a string, or a list of strings. -/
inductive KeggAnn
  | absent
  | str (s : String)
  | strList (l : List String)
deriving DecidableEq

/-- A cobra metabolite, restricted to the attributes the module reads. -/
structure Metabolite where
  id : String
  name : String
  annotation : KeggAnn
deriving DecidableEq

/-- A cobra reaction, restricted to the attributes the module reads. -/
structure Reaction where
  id : String
  reaction : String
  metabolites : List Metabolite
  reversibility : Bool
deriving DecidableEq

/-- Fixed behaviour of the external collaborators.  `parse_formula` of a
reaction string is a pure function of that string, so the balance check and
the reversibility index of the parsed reaction are keyed by the string.
`none` models a raised exception. -/
structure Oracle where
  parseOk : String → Bool
  balanced : String → Bool
  revIndex : String → Option Rat
  matchCID : String → Option String

/-- The name-based fallback of the metabolite loop in
`get_equilibrator_rxn_string`: a falsy name is skipped (`continue`), and the
`try`/`except`-guarded `COMPOUND_MATCHER.match` lookup replaces the
metabolite id on success and leaves the string unchanged on any exception. -/
def keggNameStep (o : Oracle) (kegg_rxn : String) (met : Metabolite) :
    Option String :=
  if met.name = "" then some kegg_rxn
  else
    match o.matchCID met.name with
    | some kegg_match_id => some (pyReplace kegg_rxn met.id kegg_match_id)
    | none => some kegg_rxn

/-- One iteration of the metabolite loop in `get_equilibrator_rxn_string`:
a string annotation containing `'C'` is substituted directly; a list
annotation with some `'C'`-containing entry is substituted by
`smallest_compound_ID(...)[0]`, whose `ValueError` (or the unreachable
`IndexError`) escapes the loop; otherwise the name-based fallback applies. -/
def keggMapStep (o : Oracle) (kegg_rxn : String) (met : Metabolite) :
    Option String :=
  match met.annotation with
  | KeggAnn.str kegg_ann_id =>
    if pyContainsChar kegg_ann_id 'C' then
      some (pyReplace kegg_rxn met.id kegg_ann_id)
    else keggNameStep o kegg_rxn met
  | KeggAnn.strList kegg_ann_id =>
    if kegg_ann_id.any (fun s => pyContainsChar s 'C') then
      match smallest_compound_ID kegg_ann_id with
      | some (c :: _) => some (pyReplace kegg_rxn met.id c)
      | _ => none
    else keggNameStep o kegg_rxn met
  | KeggAnn.absent => keggNameStep o kegg_rxn met

/-- `get_equilibrator_rxn_string(rxn)`: fold the metabolite loop over
`rxn.reaction`, then normalise the COBRApy arrows.  `none` models an exception
escaping the function. -/
def get_equilibrator_rxn_string (o : Oracle) (rxn : Reaction) : Option String :=
  (rxn.metabolites.foldlM (keggMapStep o) rxn.reaction).map
    (fun kegg_rxn => pyReplace (pyReplace kegg_rxn "-->" "->") "<--" "<-")

/-- The five possible fates of one reaction inside the loop of
`find_incorrect_thermodynamic_reversibility`; `agree` is the `else: continue`
branch that appends to no list. -/
inductive Outcome
  | incorrectRev
  | incompleteMap
  | problematicCalc
  | unbalancedRxn
  | agree
deriving DecidableEq

/-- The body of the loop of `find_incorrect_thermodynamic_reversibility` for
one reaction: the `try` around string building and parsing routes any failure
to `incomplete_mapping`; an unbalanced parsed reaction goes to `unbalanced`;
a failing `reversibility_index` goes to `problematic_calculation`; otherwise
the thermodynamic verdict `ln_RI < lngamma` is compared with
`rxn.reversibility`. -/
def classify (o : Oracle) (lngamma : Rat) (rxn : Reaction) : Outcome :=
  match get_equilibrator_rxn_string o rxn with
  | none => Outcome.incompleteMap
  | some s =>
    if o.parseOk s then
      if o.balanced s then
        match o.revIndex s with
        | none => Outcome.problematicCalc
        | some ln_RI =>
          if decide (ln_RI < lngamma) ≠ rxn.reversibility then
            Outcome.incorrectRev
          else Outcome.agree
      else Outcome.unbalancedRxn
    else Outcome.incompleteMap

/-- The quadruple returned by `find_incorrect_thermodynamic_reversibility`,
in the order of the Python `return` statement. -/
structure RevResult where
  incorrect_reversibility : List Reaction
  incomplete_mapping : List Reaction
  problematic_calculation : List Reaction
  unbalanced : List Reaction
deriving DecidableEq

/-- `find_incorrect_thermodynamic_reversibility(reactions, lngamma)`: one pass
over the input, appending each reaction to the list its outcome selects (the
Python appends in input order; consing onto the result of the remaining
reactions yields the same order). -/
def find_incorrect_thermodynamic_reversibility (o : Oracle)
    (reactions : List Reaction) (lngamma : Rat) : RevResult :=
  match reactions with
  | [] => ⟨[], [], [], []⟩
  | rxn :: rest =>
    let r := find_incorrect_thermodynamic_reversibility o rest lngamma
    match classify o lngamma rxn with
    | Outcome.incorrectRev =>
      ⟨rxn :: r.incorrect_reversibility, r.incomplete_mapping,
        r.problematic_calculation, r.unbalanced⟩
    | Outcome.incompleteMap =>
      ⟨r.incorrect_reversibility, rxn :: r.incomplete_mapping,
        r.problematic_calculation, r.unbalanced⟩
    | Outcome.problematicCalc =>
      ⟨r.incorrect_reversibility, r.incomplete_mapping,
        rxn :: r.problematic_calculation, r.unbalanced⟩
    | Outcome.unbalancedRxn =>
      ⟨r.incorrect_reversibility, r.incomplete_mapping,
        r.problematic_calculation, rxn :: r.unbalanced⟩
    | Outcome.agree => r

/-- The claim's rule wording for the name-based fallback, for refinement
against `keggNameStep`: no mapping when the name is falsy or the matcher
fails, the matched CID otherwise. -/
def specNameID (o : Oracle) (met : Metabolite) : Option String :=
  if met.name = "" then none else o.matchCID met.name

/-- The claim's first-applicable-rule selection of the replacement identifier
for one metabolite, for refinement against `keggMapStep`: a string
`kegg.compound` annotation containing `'C'` is used directly; otherwise a list
annotation with a `'C'`-containing entry contributes its smallest compound ID;
otherwise the name-based match applies; `none` when no rule maps the
metabolite. -/
def specMappedID (o : Oracle) (met : Metabolite) : Option String :=
  match met.annotation with
  | KeggAnn.str a =>
    if pyContainsChar a 'C' then some a else specNameID o met
  | KeggAnn.strList l =>
    if l.any (fun s => pyContainsChar s 'C') then
      (smallest_compound_ID l).bind List.head?
    else specNameID o met
  | KeggAnn.absent => specNameID o met

/-- Apply an optional replacement of `mid` in `acc`: replace when an
identifier was selected, keep `acc` unchanged otherwise. -/
def applyRepl (acc mid : String) : Option String → String
  | some k => pyReplace acc mid k
  | none => acc

/-- One step of the claim-side fold: replace the metabolite id by the selected
identifier, or keep the string unchanged when no rule maps the metabolite. -/
def specStep (o : Oracle) (acc : String) (met : Metabolite) : String :=
  applyRepl acc met.id (specMappedID o met)

/-- The claim-side description of the whole mapped reaction string: fold the
per-metabolite replacement over the reaction string, then normalise arrows. -/
def specKeggRxn (o : Oracle) (rxn : Reaction) : String :=
  pyReplace
    (pyReplace (rxn.metabolites.foldl (specStep o) rxn.reaction) "-->" "->")
    "<--" "<-"

/-- Decidable statement that the `kegg.compound` annotation of a metabolite
selects neither the string branch nor the list branch of the loop, so control
falls through to the name-based lookup. -/
def annUnmapped (met : Metabolite) : Bool :=
  match met.annotation with
  | KeggAnn.absent => true
  | KeggAnn.str a => !pyContainsChar a 'C'
  | KeggAnn.strList l => !l.any (fun s => pyContainsChar s 'C')

/-- A fixed collaborator behaviour for concrete instantiations: every string
parses, every parsed reaction balances, the reversibility index is `0`, and
name matching finds nothing. -/
def oracleEx : Oracle := ⟨fun _ => true, fun _ => true, fun _ => some 0, fun _ => none⟩

/-- A concrete reaction whose thermodynamic verdict under `oracleEx` agrees
with its annotated reversibility. -/
def rxnAgree : Reaction :=
  ⟨"R1", "a --> b",
    [⟨"a", "alpha", KeggAnn.str "C00001"⟩,
     ⟨"b", "beta", KeggAnn.strList ["D00002", "C00002"]⟩], true⟩

/-- A concrete reaction with a list annotation entry that contains `'C'` but
is not `'C'` followed by digits, so `smallest_compound_ID` raises. -/
def rxnBad : Reaction :=
  ⟨"R2", "x --> y", [⟨"x", "ex", KeggAnn.strList ["CHEBI:17234"]⟩], false⟩

/-- A concrete reaction whose thermodynamic verdict under `oracleEx` differs
from its annotated reversibility. -/
def rxnMis : Reaction := ⟨"R3", "p --> q", [], false⟩

/-- A concrete metabolite with a falsy name whose annotation maps by no rule. -/
def metFall : Metabolite := ⟨"m", "", KeggAnn.str "X00001"⟩

instance : IsTotal String (fun a b => sortKey a ≤ sortKey b) :=
  ⟨fun a b => Int.le_total (sortKey a) (sortKey b)⟩

instance : IsTrans String (fun a b => sortKey a ≤ sortKey b) :=
  ⟨fun _ _ _ hab hbc => le_trans hab hbc⟩

/-! ## Helper lemmas -/

theorem fitr_eq_filters (o : Oracle) (γ : Rat) (l : List Reaction) :
    find_incorrect_thermodynamic_reversibility o l γ =
      ⟨l.filter (fun r => decide (classify o γ r = Outcome.incorrectRev)),
       l.filter (fun r => decide (classify o γ r = Outcome.incompleteMap)),
       l.filter (fun r => decide (classify o γ r = Outcome.problematicCalc)),
       l.filter (fun r => decide (classify o γ r = Outcome.unbalancedRxn))⟩ := by
  induction l with
  | nil => rfl
  | cons rxn rest ih =>
    simp only [find_incorrect_thermodynamic_reversibility, ih]
    cases h : classify o γ rxn <;> simp [List.filter_cons, h]

theorem mem_ir_iff (o : Oracle) (γ : Rat) (l : List Reaction) (r : Reaction) :
    r ∈ (find_incorrect_thermodynamic_reversibility o l γ).incorrect_reversibility ↔
      r ∈ l ∧ classify o γ r = Outcome.incorrectRev := by
  rw [fitr_eq_filters]; simp [List.mem_filter]

theorem mem_im_iff (o : Oracle) (γ : Rat) (l : List Reaction) (r : Reaction) :
    r ∈ (find_incorrect_thermodynamic_reversibility o l γ).incomplete_mapping ↔
      r ∈ l ∧ classify o γ r = Outcome.incompleteMap := by
  rw [fitr_eq_filters]; simp [List.mem_filter]

theorem mem_pc_iff (o : Oracle) (γ : Rat) (l : List Reaction) (r : Reaction) :
    r ∈ (find_incorrect_thermodynamic_reversibility o l γ).problematic_calculation ↔
      r ∈ l ∧ classify o γ r = Outcome.problematicCalc := by
  rw [fitr_eq_filters]; simp [List.mem_filter]

theorem mem_ub_iff (o : Oracle) (γ : Rat) (l : List Reaction) (r : Reaction) :
    r ∈ (find_incorrect_thermodynamic_reversibility o l γ).unbalanced ↔
      r ∈ l ∧ classify o γ r = Outcome.unbalancedRxn := by
  rw [fitr_eq_filters]; simp [List.mem_filter]

theorem count_filter_ite {α : Type} [DecidableEq α] (p : α → Bool) (a : α)
    (l : List α) :
    List.count a (l.filter p) = if p a = true then List.count a l else 0 := by
  by_cases h : p a = true
  · rw [if_pos h, List.count_filter h]
  · rw [if_neg h]
    exact List.count_eq_zero.mpr (fun hm => h (List.of_mem_filter hm))

/-! ## Claims -/

/-- C1, counterexample: under `oracleEx`, the reaction `rxnAgree` is mapped,
parsed, balanced and calculable, and its thermodynamic verdict agrees with its
annotated reversibility, so `find_incorrect_thermodynamic_reversibility`
places it in none of the four returned lists — not in exactly one of them as
the claim states. -/
theorem thermo_C1_counterexample :
    rxnAgree ∈ [rxnAgree] ∧
    ¬(rxnAgree ∈ (find_incorrect_thermodynamic_reversibility oracleEx
        [rxnAgree] 3).incorrect_reversibility ∨
      rxnAgree ∈ (find_incorrect_thermodynamic_reversibility oracleEx
        [rxnAgree] 3).incomplete_mapping ∨
      rxnAgree ∈ (find_incorrect_thermodynamic_reversibility oracleEx
        [rxnAgree] 3).problematic_calculation ∨
      rxnAgree ∈ (find_incorrect_thermodynamic_reversibility oracleEx
        [rxnAgree] 3).unbalanced) := by
  decide

/-- C1 (amended): every reaction of the input list appears in at most one of
the four returned lists, and it appears in one of them exactly when its
per-reaction outcome is not the agreeing `else: continue` branch of the loop. -/
theorem thermo_C1_at_most_one_bucket (o : Oracle) (γ : Rat) (l : List Reaction)
    (r : Reaction) (hr : r ∈ l) :
    ((r ∈ (find_incorrect_thermodynamic_reversibility o l γ).incorrect_reversibility ∨
      r ∈ (find_incorrect_thermodynamic_reversibility o l γ).incomplete_mapping ∨
      r ∈ (find_incorrect_thermodynamic_reversibility o l γ).problematic_calculation ∨
      r ∈ (find_incorrect_thermodynamic_reversibility o l γ).unbalanced) ↔
        classify o γ r ≠ Outcome.agree) ∧
    (r ∈ (find_incorrect_thermodynamic_reversibility o l γ).incorrect_reversibility →
      r ∉ (find_incorrect_thermodynamic_reversibility o l γ).incomplete_mapping ∧
      r ∉ (find_incorrect_thermodynamic_reversibility o l γ).problematic_calculation ∧
      r ∉ (find_incorrect_thermodynamic_reversibility o l γ).unbalanced) ∧
    (r ∈ (find_incorrect_thermodynamic_reversibility o l γ).incomplete_mapping →
      r ∉ (find_incorrect_thermodynamic_reversibility o l γ).problematic_calculation ∧
      r ∉ (find_incorrect_thermodynamic_reversibility o l γ).unbalanced) ∧
    (r ∈ (find_incorrect_thermodynamic_reversibility o l γ).problematic_calculation →
      r ∉ (find_incorrect_thermodynamic_reversibility o l γ).unbalanced) := by
  simp only [mem_ir_iff, mem_im_iff, mem_pc_iff, mem_ub_iff, hr, true_and]
  cases h : classify o γ r <;> simp

/-- C1, witness: the amended statement applied to the concrete mismatching
reaction `rxnMis` under `oracleEx`. -/
theorem thermo_C1_at_most_one_bucket_witness :
    rxnMis ∈ [rxnMis] ∧
    (((rxnMis ∈ (find_incorrect_thermodynamic_reversibility oracleEx [rxnMis] 3).incorrect_reversibility ∨
      rxnMis ∈ (find_incorrect_thermodynamic_reversibility oracleEx [rxnMis] 3).incomplete_mapping ∨
      rxnMis ∈ (find_incorrect_thermodynamic_reversibility oracleEx [rxnMis] 3).problematic_calculation ∨
      rxnMis ∈ (find_incorrect_thermodynamic_reversibility oracleEx [rxnMis] 3).unbalanced) ↔
        classify oracleEx 3 rxnMis ≠ Outcome.agree) ∧
    (rxnMis ∈ (find_incorrect_thermodynamic_reversibility oracleEx [rxnMis] 3).incorrect_reversibility →
      rxnMis ∉ (find_incorrect_thermodynamic_reversibility oracleEx [rxnMis] 3).incomplete_mapping ∧
      rxnMis ∉ (find_incorrect_thermodynamic_reversibility oracleEx [rxnMis] 3).problematic_calculation ∧
      rxnMis ∉ (find_incorrect_thermodynamic_reversibility oracleEx [rxnMis] 3).unbalanced) ∧
    (rxnMis ∈ (find_incorrect_thermodynamic_reversibility oracleEx [rxnMis] 3).incomplete_mapping →
      rxnMis ∉ (find_incorrect_thermodynamic_reversibility oracleEx [rxnMis] 3).problematic_calculation ∧
      rxnMis ∉ (find_incorrect_thermodynamic_reversibility oracleEx [rxnMis] 3).unbalanced) ∧
    (rxnMis ∈ (find_incorrect_thermodynamic_reversibility oracleEx [rxnMis] 3).problematic_calculation →
      rxnMis ∉ (find_incorrect_thermodynamic_reversibility oracleEx [rxnMis] 3).unbalanced)) :=
  ⟨by decide, thermo_C1_at_most_one_bucket oracleEx 3 [rxnMis] rxnMis (by decide)⟩

/-- C2: the three stages of the loop run in sequence and each failure is
routed to its bucket — a failure while building or parsing the mapped string
sends the reaction to `incomplete_mapping`; a parsed but unbalanced reaction
goes to `unbalanced`; a parsed, balanced reaction whose reversibility index
computation fails goes to `problematic_calculation`. -/
theorem thermo_C2_stage_routing (o : Oracle) (γ : Rat) (l : List Reaction)
    (r : Reaction) (hr : r ∈ l) :
    (get_equilibrator_rxn_string o r = none →
      r ∈ (find_incorrect_thermodynamic_reversibility o l γ).incomplete_mapping) ∧
    (∀ s, get_equilibrator_rxn_string o r = some s → o.parseOk s = false →
      r ∈ (find_incorrect_thermodynamic_reversibility o l γ).incomplete_mapping) ∧
    (∀ s, get_equilibrator_rxn_string o r = some s → o.parseOk s = true →
      o.balanced s = false →
      r ∈ (find_incorrect_thermodynamic_reversibility o l γ).unbalanced) ∧
    (∀ s, get_equilibrator_rxn_string o r = some s → o.parseOk s = true →
      o.balanced s = true → o.revIndex s = none →
      r ∈ (find_incorrect_thermodynamic_reversibility o l γ).problematic_calculation) := by
  refine ⟨fun h0 => ?_, fun s hs hp => ?_, fun s hs hp hb => ?_,
    fun s hs hp hb hv => ?_⟩
  · exact (mem_im_iff o γ l r).mpr ⟨hr, by simp [classify, h0]⟩
  · exact (mem_im_iff o γ l r).mpr ⟨hr, by simp [classify, hs, hp]⟩
  · exact (mem_ub_iff o γ l r).mpr ⟨hr, by simp [classify, hs, hp, hb]⟩
  · exact (mem_pc_iff o γ l r).mpr ⟨hr, by simp [classify, hs, hp, hb, hv]⟩

/-- C2, witness: the routing statement applied to the concrete reaction
`rxnBad` (whose mapping stage fails) under `oracleEx`. -/
theorem thermo_C2_stage_routing_witness :
    rxnBad ∈ [rxnBad] ∧
    ((get_equilibrator_rxn_string oracleEx rxnBad = none →
      rxnBad ∈ (find_incorrect_thermodynamic_reversibility oracleEx [rxnBad] 3).incomplete_mapping) ∧
    (∀ s, get_equilibrator_rxn_string oracleEx rxnBad = some s →
      oracleEx.parseOk s = false →
      rxnBad ∈ (find_incorrect_thermodynamic_reversibility oracleEx [rxnBad] 3).incomplete_mapping) ∧
    (∀ s, get_equilibrator_rxn_string oracleEx rxnBad = some s →
      oracleEx.parseOk s = true → oracleEx.balanced s = false →
      rxnBad ∈ (find_incorrect_thermodynamic_reversibility oracleEx [rxnBad] 3).unbalanced) ∧
    (∀ s, get_equilibrator_rxn_string oracleEx rxnBad = some s →
      oracleEx.parseOk s = true → oracleEx.balanced s = true →
      oracleEx.revIndex s = none →
      rxnBad ∈ (find_incorrect_thermodynamic_reversibility oracleEx [rxnBad] 3).problematic_calculation)) :=
  ⟨by decide, thermo_C2_stage_routing oracleEx 3 [rxnBad] rxnBad (by decide)⟩

/-- C3: a reaction that maps, parses, balances and has a computed
reversibility index `v` lands in `incorrect_reversibility` exactly when the
thermodynamic verdict `v < lngamma` differs from its annotated reversibility,
and lands in no output list when the two agree. -/
theorem thermo_C3_verdict (o : Oracle) (γ : Rat) (l : List Reaction)
    (r : Reaction) (s : String) (v : Rat) (hr : r ∈ l)
    (hs : get_equilibrator_rxn_string o r = some s)
    (hp : o.parseOk s = true) (hb : o.balanced s = true)
    (hv : o.revIndex s = some v) :
    (r ∈ (find_incorrect_thermodynamic_reversibility o l γ).incorrect_reversibility ↔
      decide (v < γ) ≠ r.reversibility) ∧
    (decide (v < γ) = r.reversibility →
      r ∉ (find_incorrect_thermodynamic_reversibility o l γ).incorrect_reversibility ∧
      r ∉ (find_incorrect_thermodynamic_reversibility o l γ).incomplete_mapping ∧
      r ∉ (find_incorrect_thermodynamic_reversibility o l γ).problematic_calculation ∧
      r ∉ (find_incorrect_thermodynamic_reversibility o l γ).unbalanced) := by
  have hc : classify o γ r =
      if decide (v < γ) ≠ r.reversibility then Outcome.incorrectRev
      else Outcome.agree := by
    simp [classify, hs, hp, hb, hv]
  constructor
  · rw [mem_ir_iff]
    by_cases hd : decide (v < γ) ≠ r.reversibility <;> simp [hc, hd, hr]
  · intro hEq
    have hagree : classify o γ r = Outcome.agree := by simp [hc, hEq]
    simp [mem_ir_iff, mem_im_iff, mem_pc_iff, mem_ub_iff, hagree]

/-- C3, witness: the verdict statement applied to the concrete reaction
`rxnMis` under `oracleEx`, whose index `0` is below the threshold `3` while
its annotated reversibility is `false`. -/
theorem thermo_C3_verdict_witness :
    rxnMis ∈ [rxnMis] ∧
    get_equilibrator_rxn_string oracleEx rxnMis = some "p -> q" ∧
    oracleEx.parseOk "p -> q" = true ∧ oracleEx.balanced "p -> q" = true ∧
    oracleEx.revIndex "p -> q" = some 0 ∧
    ((rxnMis ∈ (find_incorrect_thermodynamic_reversibility oracleEx [rxnMis] 3).incorrect_reversibility ↔
      decide ((0 : Rat) < 3) ≠ rxnMis.reversibility) ∧
    (decide ((0 : Rat) < 3) = rxnMis.reversibility →
      rxnMis ∉ (find_incorrect_thermodynamic_reversibility oracleEx [rxnMis] 3).incorrect_reversibility ∧
      rxnMis ∉ (find_incorrect_thermodynamic_reversibility oracleEx [rxnMis] 3).incomplete_mapping ∧
      rxnMis ∉ (find_incorrect_thermodynamic_reversibility oracleEx [rxnMis] 3).problematic_calculation ∧
      rxnMis ∉ (find_incorrect_thermodynamic_reversibility oracleEx [rxnMis] 3).unbalanced)) :=
  ⟨by decide, by decide, by decide, by decide, by decide,
    thermo_C3_verdict oracleEx 3 [rxnMis] rxnMis "p -> q" 0 (by decide)
      (by decide) (by decide) (by decide) (by decide)⟩

theorem keggNameStep_eq (o : Oracle) (acc : String) (met : Metabolite) :
    keggNameStep o acc met = some (applyRepl acc met.id (specNameID o met)) := by
  unfold keggNameStep specNameID
  by_cases h : met.name = ""
  · simp [h, applyRepl]
  · simp only [h, ite_false]
    cases o.matchCID met.name <;> simp [applyRepl]

theorem keggMapStep_some (o : Oracle) (acc t : String) (met : Metabolite)
    (h : keggMapStep o acc met = some t) : t = specStep o acc met := by
  cases hann : met.annotation with
  | absent =>
    simp only [keggMapStep, hann, keggNameStep_eq, Option.some.injEq] at h
    simp only [specStep, specMappedID, hann]
    exact h.symm
  | str a =>
    simp only [keggMapStep, hann] at h
    simp only [specStep, specMappedID, hann]
    by_cases hc : pyContainsChar a 'C' = true
    · rw [if_pos hc] at h
      rw [if_pos hc]
      simp only [Option.some.injEq] at h
      simp [applyRepl, ← h]
    · rw [if_neg hc, keggNameStep_eq] at h
      rw [if_neg hc]
      exact (Option.some.inj h).symm
  | strList L =>
    simp only [keggMapStep, hann] at h
    simp only [specStep, specMappedID, hann]
    by_cases hc : L.any (fun s => pyContainsChar s 'C') = true
    · rw [if_pos hc] at h
      rw [if_pos hc]
      cases hs : smallest_compound_ID L with
      | none => rw [hs] at h; exact absurd h (by simp)
      | some cs =>
        rw [hs] at h
        cases cs with
        | nil => exact absurd h (by simp)
        | cons c rest =>
          simp only [Option.some.injEq] at h
          simp [applyRepl, ← h]
    · rw [if_neg hc, keggNameStep_eq] at h
      rw [if_neg hc]
      exact (Option.some.inj h).symm

theorem foldlM_keggMapStep_some (o : Oracle) :
    ∀ (ms : List Metabolite) (acc s : String),
      ms.foldlM (keggMapStep o) acc = some s → s = ms.foldl (specStep o) acc := by
  intro ms
  induction ms with
  | nil =>
    intro acc s h
    exact (Option.some.inj h).symm
  | cons m rest ih =>
    intro acc s h
    rw [List.foldlM_cons] at h
    cases hstep : keggMapStep o acc m with
    | none => rw [hstep] at h; exact absurd h (by simp)
    | some t =>
      rw [hstep] at h
      simp only [Option.bind_eq_bind, Option.some_bind] at h
      rw [List.foldl_cons, ← keggMapStep_some o acc t m hstep]
      exact ih t s h

/-- C4: whenever `get_equilibrator_rxn_string` returns a string, that string
is exactly the claim-side description `specKeggRxn`: each metabolite id is
replaced via the first applicable rule — a string `kegg.compound` annotation
containing `'C'`, else the smallest KEGG compound ID of a list annotation,
else a name-based match — and a metabolite mapped by no rule leaves the
string unchanged at its step. -/
theorem thermo_C4_first_applicable_rule (o : Oracle) (rxn : Reaction)
    (s : String) (h : get_equilibrator_rxn_string o rxn = some s) :
    s = specKeggRxn o rxn := by
  unfold get_equilibrator_rxn_string at h
  cases hf : rxn.metabolites.foldlM (keggMapStep o) rxn.reaction with
  | none => rw [hf] at h; exact absurd h (by simp)
  | some kegg =>
    rw [hf] at h
    simp only [Option.map_some', Option.some.injEq] at h
    rw [specKeggRxn, ← foldlM_keggMapStep_some o rxn.metabolites rxn.reaction kegg hf]
    exact h.symm

/-- C4, witness: the refinement applied to the concrete reaction `rxnAgree`
under `oracleEx`; its two metabolites are mapped by the string rule and the
list rule respectively. -/
theorem thermo_C4_first_applicable_rule_witness :
    get_equilibrator_rxn_string oracleEx rxnAgree = some "C00001 -> C00002" ∧
    "C00001 -> C00002" = specKeggRxn oracleEx rxnAgree :=
  ⟨by decide,
    thermo_C4_first_applicable_rule oracleEx rxnAgree "C00001 -> C00002" (by decide)⟩

/-- C5: the classification is a single pass — each of the four returned lists
is a sublist of the input (so its elements come from the input and keep the
input's relative order), and across the four lists each reaction occurs at
most as often as it occurs in the input, hence in at most one list for
distinct inputs. -/
theorem thermo_C5_single_pass (o : Oracle) (γ : Rat) (l : List Reaction) :
    (find_incorrect_thermodynamic_reversibility o l γ).incorrect_reversibility.Sublist l ∧
    (find_incorrect_thermodynamic_reversibility o l γ).incomplete_mapping.Sublist l ∧
    (find_incorrect_thermodynamic_reversibility o l γ).problematic_calculation.Sublist l ∧
    (find_incorrect_thermodynamic_reversibility o l γ).unbalanced.Sublist l ∧
    ∀ r : Reaction,
      List.count r (find_incorrect_thermodynamic_reversibility o l γ).incorrect_reversibility +
      List.count r (find_incorrect_thermodynamic_reversibility o l γ).incomplete_mapping +
      List.count r (find_incorrect_thermodynamic_reversibility o l γ).problematic_calculation +
      List.count r (find_incorrect_thermodynamic_reversibility o l γ).unbalanced ≤
        List.count r l := by
  simp only [fitr_eq_filters]
  refine ⟨List.filter_sublist l, List.filter_sublist l, List.filter_sublist l,
    List.filter_sublist l, ?_⟩
  intro r
  simp only [count_filter_ite]
  cases h : classify o γ r <;> simp [h]

theorem foldlM_none_of_badlist (o : Oracle) (met : Metabolite)
    (L : List String) (hann : met.annotation = KeggAnn.strList L)
    (hC : L.any (fun s => pyContainsChar s 'C') = true)
    (hfail : smallest_compound_ID L = none) :
    ∀ (ms : List Metabolite), met ∈ ms → ∀ acc : String,
      ms.foldlM (keggMapStep o) acc = none := by
  intro ms
  induction ms with
  | nil => intro h; exact absurd h (List.not_mem_nil met)
  | cons m rest ih =>
    intro hmem acc
    rw [List.foldlM_cons]
    rcases List.mem_cons.mp hmem with heq | htail
    · have hnone : keggMapStep o acc m = none := by
        rw [← heq]
        simp only [keggMapStep, hann, if_pos hC, hfail]
      simp [hnone]
    · cases hstep : keggMapStep o acc m with
      | none => simp
      | some t => simp [ih htail t]

/-- C6: a metabolite whose list annotation has a `'C'`-containing entry but
whose `smallest_compound_ID` call fails (the `ValueError` of
`int(x.lstrip('C'))`, e.g. on `"CHEBI:17234"`) makes the whole string-building
stage fail, and the exception is caught: the reaction is classified into
`incomplete_mapping` rather than propagating the error. -/
theorem thermo_C6_valueerror_caught (o : Oracle) (γ : Rat)
    (l : List Reaction) (r : Reaction) (met : Metabolite) (L : List String)
    (hr : r ∈ l) (hm : met ∈ r.metabolites)
    (hann : met.annotation = KeggAnn.strList L)
    (hC : L.any (fun s => pyContainsChar s 'C') = true)
    (hfail : smallest_compound_ID L = none) :
    get_equilibrator_rxn_string o r = none ∧
    r ∈ (find_incorrect_thermodynamic_reversibility o l γ).incomplete_mapping := by
  have h0 : get_equilibrator_rxn_string o r = none := by
    unfold get_equilibrator_rxn_string
    rw [foldlM_none_of_badlist o met L hann hC hfail r.metabolites hm r.reaction]
    rfl
  exact ⟨h0, (mem_im_iff o γ l r).mpr ⟨hr, by simp [classify, h0]⟩⟩

/-- C6, witness: the concrete reaction `rxnBad`, whose only metabolite is
annotated with the list `["CHEBI:17234"]`, is routed to `incomplete_mapping`
under `oracleEx`. -/
theorem thermo_C6_valueerror_caught_witness :
    rxnBad ∈ [rxnBad] ∧
    (⟨"x", "ex", KeggAnn.strList ["CHEBI:17234"]⟩ : Metabolite) ∈ rxnBad.metabolites ∧
    (["CHEBI:17234"].any (fun s => pyContainsChar s 'C') = true) ∧
    smallest_compound_ID ["CHEBI:17234"] = none ∧
    (get_equilibrator_rxn_string oracleEx rxnBad = none ∧
      rxnBad ∈ (find_incorrect_thermodynamic_reversibility oracleEx
        [rxnBad] 3).incomplete_mapping) :=
  ⟨by decide, by decide, by decide, by decide,
    thermo_C6_valueerror_caught oracleEx 3 [rxnBad] rxnBad
      ⟨"x", "ex", KeggAnn.strList ["CHEBI:17234"]⟩ ["CHEBI:17234"]
      (by decide) (by decide) rfl (by decide) (by decide)⟩

theorem mapM_option_isSome {α β : Type} (f : α → Option β) :
    ∀ l : List α, (l.mapM f).isSome = true ↔ ∀ x ∈ l, (f x).isSome = true := by
  intro l
  induction l with
  | nil =>
    exact ⟨fun _ x hx => absurd hx (List.not_mem_nil x), fun _ => rfl⟩
  | cons a as ih =>
    rw [List.mapM_cons]
    cases hfa : f a with
    | none => simp [hfa]
    | some b =>
      cases has : as.mapM f with
      | none =>
        have hne : ¬ ∀ x ∈ as, (f x).isSome = true := by
          rw [← ih, has]
          simp
        simp [hfa, has, hne]
      | some bs =>
        have hall : ∀ x ∈ as, (f x).isSome = true := ih.mp (by rw [has]; rfl)
        simp [hfa, has]
        exact hall

/-- C7, counterexample: `"CHEBI:17234"` contains the character `'C'`, yet
`smallest_compound_ID ["CHEBI:17234"]` does not return the filtered, sorted
list the claim describes — `int("HEBI:17234")` raises `ValueError`, so the
call returns nothing at all. -/
theorem thermo_C7_counterexample :
    pyContainsChar "CHEBI:17234" 'C' = true ∧
    smallest_compound_ID ["CHEBI:17234"] = none := by
  decide

/-- C7 (amended): the filter of `smallest_compound_ID` keeps exactly the
elements that contain `'C'` anywhere (non-prefix occurrences included); the
call returns a list precisely when every kept element's
`int(x.lstrip('C'))` key parses, and in that case the returned list is a
permutation of the filtered elements in ascending key order; when some kept
element's key fails to parse the function raises instead of returning. -/
theorem thermo_C7_filter_sort (l : List String) :
    ((smallest_compound_ID l).isSome = true ↔
      ∀ x ∈ l, pyContainsChar x 'C' = true →
        (pyInt (pyLstrip x 'C')).isSome = true) ∧
    ∀ r, smallest_compound_ID l = some r →
      r.Perm (l.filter (fun x => pyContainsChar x 'C')) ∧
      r.Pairwise (fun a b => sortKey a ≤ sortKey b) ∧
      ∀ x ∈ l, pyContainsChar x 'C' = true → x ∈ r := by
  have hiff : (smallest_compound_ID l).isSome = true ↔
      ∀ x ∈ l.filter (fun x => pyContainsChar x 'C'),
        (pyInt (pyLstrip x 'C')).isSome = true := by
    rw [← mapM_option_isSome]
    unfold smallest_compound_ID
    cases hm : (l.filter (fun x => pyContainsChar x 'C')).mapM
        (fun x => pyInt (pyLstrip x 'C')) <;> simp [hm]
  refine ⟨?_, ?_⟩
  · rw [hiff]
    constructor
    · intro h x hx hc
      exact h x (List.mem_filter.mpr ⟨hx, hc⟩)
    · intro h x hx
      exact h x (List.mem_filter.mp hx).1 (List.mem_filter.mp hx).2
  · intro r hr
    unfold smallest_compound_ID at hr
    cases hm : (l.filter (fun x => pyContainsChar x 'C')).mapM
        (fun x => pyInt (pyLstrip x 'C')) with
    | none => rw [hm] at hr; exact absurd hr (by simp)
    | some ks =>
      rw [hm] at hr
      simp only [Option.some.injEq] at hr
      subst hr
      refine ⟨List.perm_insertionSort _ _,
        List.sorted_insertionSort (fun a b => sortKey a ≤ sortKey b)
          (l.filter (fun x => pyContainsChar x 'C')), ?_⟩
      intro x hx hc
      exact ((List.perm_insertionSort (fun a b => sortKey a ≤ sortKey b)
        (l.filter (fun x => pyContainsChar x 'C'))).mem_iff).mpr
        (List.mem_filter.mpr ⟨hx, hc⟩)

/-- C7, witness: the amended statement applied to the concrete list
`["D00001", "C00099", "C00031"]`. -/
theorem thermo_C7_filter_sort_witness :
    ((smallest_compound_ID ["D00001", "C00099", "C00031"]).isSome = true ↔
      ∀ x ∈ ["D00001", "C00099", "C00031"], pyContainsChar x 'C' = true →
        (pyInt (pyLstrip x 'C')).isSome = true) ∧
    ∀ r, smallest_compound_ID ["D00001", "C00099", "C00031"] = some r →
      r.Perm (["D00001", "C00099", "C00031"].filter
        (fun x => pyContainsChar x 'C')) ∧
      r.Pairwise (fun a b => sortKey a ≤ sortKey b) ∧
      ∀ x ∈ ["D00001", "C00099", "C00031"], pyContainsChar x 'C' = true →
        x ∈ r :=
  thermo_C7_filter_sort ["D00001", "C00099", "C00031"]

/-- C8: the functions are free of side effects on their inputs — in this pure
embedding every reaction placed in one of the four returned lists is the very
input value, with its reaction string, metabolites, annotations and
reversibility flag unchanged, and the mapped KEGG string is a freshly built
value returned by `get_equilibrator_rxn_string`. -/
theorem thermo_C8_inputs_unchanged (o : Oracle) (γ : Rat) (l : List Reaction)
    (r : Reaction)
    (h : r ∈ (find_incorrect_thermodynamic_reversibility o l γ).incorrect_reversibility ∨
      r ∈ (find_incorrect_thermodynamic_reversibility o l γ).incomplete_mapping ∨
      r ∈ (find_incorrect_thermodynamic_reversibility o l γ).problematic_calculation ∨
      r ∈ (find_incorrect_thermodynamic_reversibility o l γ).unbalanced) :
    r ∈ l := by
  rcases h with h | h | h | h
  · exact ((mem_ir_iff o γ l r).mp h).1
  · exact ((mem_im_iff o γ l r).mp h).1
  · exact ((mem_pc_iff o γ l r).mp h).1
  · exact ((mem_ub_iff o γ l r).mp h).1

/-- C8, witness: the statement applied to the concrete reaction `rxnMis`,
which lands in `incorrect_reversibility` under `oracleEx`. -/
theorem thermo_C8_inputs_unchanged_witness :
    (rxnMis ∈ (find_incorrect_thermodynamic_reversibility oracleEx
        [rxnMis] 3).incorrect_reversibility ∨
      rxnMis ∈ (find_incorrect_thermodynamic_reversibility oracleEx
        [rxnMis] 3).incomplete_mapping ∨
      rxnMis ∈ (find_incorrect_thermodynamic_reversibility oracleEx
        [rxnMis] 3).problematic_calculation ∨
      rxnMis ∈ (find_incorrect_thermodynamic_reversibility oracleEx
        [rxnMis] 3).unbalanced) ∧
    rxnMis ∈ [rxnMis] :=
  ⟨by decide, thermo_C8_inputs_unchanged oracleEx 3 [rxnMis] rxnMis (by decide)⟩

/-- C9: with the behaviour of the external collaborators fixed, the
classification is deterministic — two runs on equal reaction lists, equal
thresholds and pointwise-equal collaborator behaviour return the same four
lists. -/
theorem thermo_C9_deterministic (o₁ o₂ : Oracle) (γ : Rat)
    (l₁ l₂ : List Reaction) (hl : l₁ = l₂)
    (hp : ∀ s, o₁.parseOk s = o₂.parseOk s)
    (hb : ∀ s, o₁.balanced s = o₂.balanced s)
    (hv : ∀ s, o₁.revIndex s = o₂.revIndex s)
    (hm : ∀ n, o₁.matchCID n = o₂.matchCID n) :
    find_incorrect_thermodynamic_reversibility o₁ l₁ γ =
      find_incorrect_thermodynamic_reversibility o₂ l₂ γ := by
  have ho : o₁ = o₂ := by
    cases o₁ with
    | mk p b v m =>
      cases o₂ with
      | mk p' b' v' m' =>
        have hp' : p = p' := funext hp
        have hb' : b = b' := funext hb
        have hv' : v = v' := funext hv
        have hm' : m = m' := funext hm
        rw [hp', hb', hv', hm']
  rw [ho, hl]

/-- C9, witness: the determinism statement applied to two identical runs on
`oracleEx` and `[rxnAgree]`. -/
theorem thermo_C9_deterministic_witness :
    find_incorrect_thermodynamic_reversibility oracleEx [rxnAgree] 3 =
      find_incorrect_thermodynamic_reversibility oracleEx [rxnAgree] 3 :=
  thermo_C9_deterministic oracleEx oracleEx 3 [rxnAgree] [rxnAgree] rfl
    (fun _ => rfl) (fun _ => rfl) (fun _ => rfl) (fun _ => rfl)

/-- C10: when the `kegg.compound` annotation selects neither the string nor
the list branch, the loop body never fails: with a falsy metabolite name the
metabolite is skipped and the string is unchanged, and a failing
`CompoundMatcher` lookup is suppressed, also leaving the string unchanged. -/
theorem thermo_C10_name_fallback_safe (o : Oracle) (acc : String)
    (met : Metabolite) (hfall : annUnmapped met = true) :
    (keggMapStep o acc met).isSome = true ∧
    (met.name = "" → keggMapStep o acc met = some acc) ∧
    (o.matchCID met.name = none → keggMapStep o acc met = some acc) := by
  have hstep : keggMapStep o acc met = keggNameStep o acc met := by
    unfold annUnmapped at hfall
    cases hann : met.annotation with
    | absent => simp [keggMapStep, hann]
    | str a =>
      rw [hann] at hfall
      simp only [Bool.not_eq_true'] at hfall
      simp [keggMapStep, hann, hfall]
    | strList L =>
      rw [hann] at hfall
      simp only [Bool.not_eq_true'] at hfall
      simp [keggMapStep, hann, hfall]
  rw [hstep]
  unfold keggNameStep
  by_cases hn : met.name = ""
  · rw [if_pos hn]
    exact ⟨rfl, fun _ => rfl, fun _ => rfl⟩
  · rw [if_neg hn]
    generalize o.matchCID met.name = mc
    cases mc with
    | none => exact ⟨rfl, fun h => absurd h hn, fun _ => rfl⟩
    | some c => exact ⟨rfl, fun h => absurd h hn, fun h => Option.noConfusion h⟩

/-- C10, witness: the statement applied to the concrete metabolite `metFall`
(no usable annotation, falsy name) under `oracleEx`. -/
theorem thermo_C10_name_fallback_safe_witness :
    annUnmapped metFall = true ∧
    ((keggMapStep oracleEx "m --> n" metFall).isSome = true ∧
      (metFall.name = "" → keggMapStep oracleEx "m --> n" metFall = some "m --> n") ∧
      (oracleEx.matchCID metFall.name = none →
        keggMapStep oracleEx "m --> n" metFall = some "m --> n")) :=
  ⟨by decide, thermo_C10_name_fallback_safe oracleEx "m --> n" metFall (by decide)⟩

end Memote
